import Mathlib

/-!
Shallow embedding of the rust-xivloader launch core
(src/src-tauri/src/ffxiv.rs and src/network.rs), together with theorems
settling the specification claims about the bounded-redirect download
retry policy, native process handle discipline, add-on installation
integrity checking, launch orchestration ordering, session-token
extraction, device-fingerprint generation and the persisted asset-version
fallback.

Strings are modelled as lists of characters; ambient effects (HTTP
responses, the Windows API, the filesystem) are supplied as explicit
oracle values so every embedded function is a pure, executable Lean
definition mirroring the corresponding Rust function.
-/

/- ### Character-list string utilities -/

/-- The character list of a string literal. -/
def strChars (s : String) : List Char := s.data

/-- Boolean prefix test on character lists. -/
def listStartsWith : List Char → List Char → Bool
  | [], _ => true
  | _ :: _, [] => false
  | p :: ps, c :: cs => p == c && listStartsWith ps cs

/-- Boolean substring-occurrence test: does `pat` occur contiguously in the list? -/
def occursSub (pat : List Char) : List Char → Bool
  | [] => listStartsWith pat []
  | c :: cs => listStartsWith pat (c :: cs) || occursSub pat cs

theorem listStartsWith_self_append (p t : List Char) :
    listStartsWith p (p ++ t) = true := by
  induction p with
  | nil => rfl
  | cons c cs ih => simp [listStartsWith, ih]

theorem listStartsWith_mono {p s : List Char} (t : List Char)
    (h : listStartsWith p s = true) : listStartsWith p (s ++ t) = true := by
  induction p generalizing s with
  | nil => rfl
  | cons c cs ih =>
    cases s with
    | nil => simp [listStartsWith] at h
    | cons d ds =>
      simp only [listStartsWith, Bool.and_eq_true] at h
      simp [listStartsWith, h.1, ih h.2]

theorem listStartsWith_append_long {p s : List Char} (t : List Char)
    (h : p.length ≤ s.length) :
    listStartsWith p (s ++ t) = listStartsWith p s := by
  induction p generalizing s with
  | nil => rfl
  | cons c cs ih =>
    cases s with
    | nil => simp at h
    | cons d ds =>
      simp only [List.length_cons, Nat.succ_le_succ_iff] at h
      simp only [List.cons_append, listStartsWith, List.append_eq, ih h]

theorem occursSub_nil_pat (s : List Char) : occursSub [] s = true := by
  cases s <;> simp [occursSub, listStartsWith]

theorem occursSub_append_left {p l : List Char} (s : List Char)
    (h : occursSub p l = true) : occursSub p (l ++ s) = true := by
  induction l with
  | nil =>
    cases p with
    | nil => exact occursSub_nil_pat s
    | cons c cs => simp [occursSub, listStartsWith] at h
  | cons c cs ih =>
    simp only [occursSub, Bool.or_eq_true] at h
    rcases h with h | h
    · have := listStartsWith_mono (p := p) (s := c :: cs) s h
      rw [List.cons_append] at this
      simp [occursSub, this]
    · simp [occursSub, ih h]

theorem occursSub_of_drop {p : List Char} {n : Nat} {s : List Char}
    (h : occursSub p (s.drop n) = true) : occursSub p s = true := by
  induction s generalizing n with
  | nil => simpa using h
  | cons c cs ih =>
    cases n with
    | zero => simpa using h
    | succ m =>
      simp only [List.drop_succ_cons] at h
      simp [occursSub, ih h]

/- ### Download retry policy (download_file, ffxiv.rs lines 892-950) -/

/-- One HTTP response as seen by the download loop: a status code and the
optional value of the location header. -/
structure HttpResponse where
  status : Nat
  location : Option (List Char)

/-- reqwest StatusCode.is_redirection: 300..=399. -/
def is_redirection (s : Nat) : Bool := decide (300 ≤ s) && decide (s < 400)

/-- reqwest StatusCode.is_success: 200..=299. -/
def is_success (s : Nat) : Bool := decide (200 ≤ s) && decide (s < 300)

/-- const MAX_RETRIES in download_file. -/
def MAX_RETRIES : Nat := 15

/-- Result of the download loop: success, the too-many-redirects error, the
non-redirect non-success status error, or exhaustion of the mocked
response sequence (a transport failure). -/
inductive DownloadOutcome where
  | downloaded
  | tooManyRedirects
  | statusError (code : Nat)
  | noResponse
deriving DecidableEq, Repr

/-- The while loop of download_file: the mocked response sequence is
consumed one element per fetch; the second component is the final value
of the retry counter. -/
def download_loop : List HttpResponse → Nat → DownloadOutcome × Nat
  | [], retries =>
    if retries < MAX_RETRIES then (.noResponse, retries)
    else (.tooManyRedirects, retries)
  | r :: rest, retries =>
    if retries < MAX_RETRIES then
      if is_redirection r.status && r.location.isSome then
        download_loop rest (retries + 1)
      else if is_success r.status then (.downloaded, retries)
      else (.statusError r.status, retries)
    else (.tooManyRedirects, retries)

/-- download_file (ffxiv.rs lines 892-950) over a mocked response
sequence: the loop starting with a zero retry counter. -/
def download_file (responses : List HttpResponse) : DownloadOutcome × Nat :=
  download_loop responses 0

theorem download_loop_redirects (loc : List Char) (n : Nat) :
    ∀ (k : Nat) (rest : List HttpResponse), k + n ≤ MAX_RETRIES →
      download_loop (List.replicate n ⟨302, some loc⟩ ++ rest) k
        = download_loop rest (k + n) := by
  induction n with
  | zero => intro k rest _; simp
  | succ m ih =>
    intro k rest h
    have hk : k < MAX_RETRIES := by omega
    have hred : is_redirection (302:Nat) = true := rfl
    rw [List.replicate_succ, List.cons_append]
    have hstep : download_loop ((⟨302, some loc⟩ : HttpResponse) ::
        (List.replicate m ⟨302, some loc⟩ ++ rest)) k
        = download_loop (List.replicate m ⟨302, some loc⟩ ++ rest) (k + 1) := by
      simp [download_loop, hk, hred]
    rw [hstep, ih (k + 1) rest (by omega)]
    have : k + 1 + m = k + (m + 1) := by omega
    rw [this]

/-- C1: in the download operation, a sequence of N redirect responses each
carrying a location header (N < 15) followed by one success response
completes successfully with the retry counter incremented to N; N ≥ 15
redirects fail with the too-many-redirects error; and a non-redirect,
non-success status fails immediately with a status error, leaving the
retry counter at 0. -/
theorem download_retry_policy (n s : Nat) (loc : List Char) (rest : List HttpResponse) :
    (n < MAX_RETRIES →
      download_file (List.replicate n ⟨302, some loc⟩ ++ [⟨200, none⟩])
        = (.downloaded, n)) ∧
    (MAX_RETRIES ≤ n →
      download_file (List.replicate n ⟨302, some loc⟩ ++ rest)
        = (.tooManyRedirects, MAX_RETRIES)) ∧
    (is_redirection s = false → is_success s = false →
      download_file (⟨s, none⟩ :: rest) = (.statusError s, 0)) := by
  refine ⟨?_, ?_, ?_⟩
  · intro hn
    have h := download_loop_redirects loc n 0 [⟨200, none⟩] (by omega)
    simp only [download_file, h, Nat.zero_add]
    have hred : (is_redirection (200:Nat) && (none : Option (List Char)).isSome) = false := by
      decide
    simp [download_loop, hn, hred, is_success]
  · intro hn
    have hsplit : n = MAX_RETRIES + (n - MAX_RETRIES) := by omega
    rw [hsplit, List.replicate_add, List.append_assoc]
    have h := download_loop_redirects loc MAX_RETRIES 0
      (List.replicate (n - MAX_RETRIES) ⟨302, some loc⟩ ++ rest) (by omega)
    simp only [download_file, h, Nat.zero_add]
    cases List.replicate (n - MAX_RETRIES) (⟨302, some loc⟩ : HttpResponse) ++ rest with
    | nil => simp [download_loop]
    | cons a l => simp [download_loop]
  · intro hr hs
    simp [download_file, download_loop, hr, hs, MAX_RETRIES]

/-- Witness for C1 at concrete inputs: 3 redirects then success, 15
redirects, and an immediate 404. -/
theorem download_retry_policy_witness :
    download_file (List.replicate 3 ⟨302, some []⟩ ++ [⟨200, none⟩]) = (.downloaded, 3) ∧
    download_file (List.replicate 15 ⟨302, some []⟩ ++ []) = (.tooManyRedirects, 15) ∧
    download_file (⟨404, none⟩ :: []) = (.statusError 404, 0) :=
  ⟨(download_retry_policy 3 404 [] []).1 (by decide),
   (download_retry_policy 15 404 [] []).2.1 (by decide),
   (download_retry_policy 3 404 [] []).2.2 (by decide) (by decide)⟩

/- ### Suspended process creation (create_suspended_game_process,
ffxiv.rs lines 123-198) -/

/-- Oracle for the Windows API calls made by create_suspended_game_process:
whether InitializeSecurityDescriptor and SetSecurityDescriptorDacl
succeed, the outcome of CreateProcessW (on success, the pid reported by
GetProcessId and the two native handles), and whether ResumeThread
succeeds. -/
structure WinOracle where
  init_sd_ok : Bool
  set_dacl_ok : Bool
  create : Option (Nat × Nat × Nat)
  resume_ok : Bool

/-- create_suspended_game_process (ffxiv.rs lines 123-198): the first
component is the returned result, the second records every CloseHandle
call made before returning, in order. -/
def create_suspended_game_process (o : WinOracle) :
    Except (List Char) Nat × List Nat :=
  if o.init_sd_ok = false then
    (.error (strChars "Failed to initialize security descriptor"), [])
  else if o.set_dacl_ok = false then
    (.error (strChars "Failed to set security descriptor DACL"), [])
  else
    match o.create with
    | none => (.error (strChars "Failed to create process"), [])
    | some (pid, hProcess, hThread) =>
      if o.resume_ok = false then
        (.error (strChars "Failed to resume process"), [hThread, hProcess])
      else
        (.ok pid, [hThread, hProcess])

/-- C2: whenever CreateProcessW runs and succeeds, both native handles are
closed exactly once before the call returns (on the success path and on
the resume-failure path alike); when creation fails, or an earlier step
fails, no handle exists and none is closed; and on success the returned
process id is the nonzero id reported by the operating system. -/
theorem create_process_handle_discipline (o : WinOracle) :
    (∀ pid hp ht, o.init_sd_ok = true → o.set_dacl_ok = true →
      o.create = some (pid, hp, ht) → hp ≠ ht →
      (create_suspended_game_process o).2.count hp = 1 ∧
      (create_suspended_game_process o).2.count ht = 1) ∧
    ((o.init_sd_ok = false ∨ o.set_dacl_ok = false ∨ o.create = none) →
      (create_suspended_game_process o).2 = []) ∧
    (∀ pid hp ht p, o.create = some (pid, hp, ht) → pid ≠ 0 →
      (create_suspended_game_process o).1 = .ok p → p ≠ 0) := by
  refine ⟨?_, ?_, ?_⟩
  · intro pid hp ht h1 h2 hc hne
    simp only [create_suspended_game_process, h1, h2, hc]
    cases hr : o.resume_ok <;>
      simp [List.count_cons, hne, Ne.symm hne]
  · rintro (h | h | h) <;> simp [create_suspended_game_process, h] <;>
      cases h1 : o.init_sd_ok <;> cases h2 : o.set_dacl_ok <;> simp
  · intro pid hp ht p hc hpid hres
    cases h1 : o.init_sd_ok <;> cases h2 : o.set_dacl_ok <;> cases hr : o.resume_ok <;>
      (simp [create_suspended_game_process, h1, h2, hc, hr] at hres;
       try exact hres ▸ hpid)

/-- Witness for C2: a successful creation with pid 7 and handles 100/101
closes each handle once; a failed creation closes nothing; the returned
pid is nonzero. -/
theorem create_process_handle_discipline_witness :
    ((create_suspended_game_process ⟨true, true, some (7, 100, 101), true⟩).2.count 100 = 1 ∧
     (create_suspended_game_process ⟨true, true, some (7, 100, 101), true⟩).2.count 101 = 1) ∧
    (create_suspended_game_process ⟨true, true, none, true⟩).2 = [] ∧
    (7 : Nat) ≠ 0 :=
  ⟨(create_process_handle_discipline ⟨true, true, some (7, 100, 101), true⟩).1
      7 100 101 rfl rfl rfl (by decide),
   (create_process_handle_discipline ⟨true, true, none, true⟩).2.1 (Or.inr (Or.inr rfl)),
   (create_process_handle_discipline ⟨true, true, some (7, 100, 101), true⟩).2.2
      7 100 101 7 rfl (by decide) rfl⟩

/- ### Installation integrity (check_dalamud_integrity, ffxiv.rs
lines 968-999) -/

/-- One manifest entry is satisfied: the listed file exists and its
recomputed hash equals the recorded one. `sha1hex` abstracts the
lowercase-hex SHA-1 digest, `fs` maps a file path to its contents when
the file exists. -/
def entry_ok (sha1hex : List Nat → List Char) (fs : List Char → Option (List Nat))
    (path : List Char) (p : List Char × List Char) : Bool :=
  match fs (path ++ (strChars "/" ++ p.1)) with
  | none => false
  | some contents => sha1hex contents == p.2

/-- The for loop of check_dalamud_integrity over the parsed manifest
entries: a missing file or a hash mismatch yields Ok(false), otherwise
the loop continues and finally yields Ok(true). -/
def integrity_loop (sha1hex : List Nat → List Char) (fs : List Char → Option (List Nat))
    (path : List Char) : List (List Char × List Char) → Except (List Char) Bool
  | [] => .ok true
  | p :: rest =>
    match fs (path ++ (strChars "/" ++ p.1)) with
    | none => .ok false
    | some contents =>
      if sha1hex contents == p.2 then integrity_loop sha1hex fs path rest
      else .ok false

/-- check_dalamud_integrity (ffxiv.rs lines 968-999): a missing
hashes.json yields Ok(false), an unparsable one is an error, otherwise
the manifest entries are checked in order. `parseHashes` abstracts the
JSON decoding of hashes.json into path/hash pairs. -/
def check_dalamud_integrity (sha1hex : List Nat → List Char)
    (fs : List Char → Option (List Nat))
    (parseHashes : List Nat → Option (List (List Char × List Char)))
    (path : List Char) : Except (List Char) Bool :=
  match fs (path ++ strChars "/hashes.json") with
  | none => .ok false
  | some bytes =>
    match parseHashes bytes with
    | none => .error (strChars "Failed to parse hashes.json")
    | some hashes => integrity_loop sha1hex fs path hashes

theorem integrity_loop_eq_all (sha1hex : List Nat → List Char)
    (fs : List Char → Option (List Nat)) (path : List Char)
    (l : List (List Char × List Char)) :
    integrity_loop sha1hex fs path l = .ok (l.all (entry_ok sha1hex fs path)) := by
  induction l with
  | nil => rfl
  | cons p rest ih =>
    simp only [integrity_loop, List.all_cons, entry_ok]
    cases hf : fs (path ++ (strChars "/" ++ p.1)) with
    | none => simp
    | some contents =>
      by_cases heq : sha1hex contents = p.2
      · simp [heq, ih]
      · simp [heq]

theorem entry_ok_iff (sha1hex : List Nat → List Char)
    (fs : List Char → Option (List Nat)) (path : List Char)
    (p : List Char × List Char) :
    entry_ok sha1hex fs path p = true ↔
      ∃ c, fs (path ++ (strChars "/" ++ p.1)) = some c ∧ sha1hex c = p.2 := by
  unfold entry_ok
  cases hf : fs (path ++ (strChars "/" ++ p.1)) with
  | none => simp
  | some contents => simp [beq_iff_eq]

/-- C3: check_dalamud_integrity returns Ok(true) exactly when every file
listed in the parsed hashes.json manifest exists and its recomputed hash
equals the recorded value, returns Ok(false) exactly when some listed
file is absent or mismatched, and returns Ok(false) outright when the
hashes.json manifest file itself is missing. -/
theorem check_dalamud_integrity_spec (sha1hex : List Nat → List Char)
    (fs : List Char → Option (List Nat))
    (parseHashes : List Nat → Option (List (List Char × List Char)))
    (path : List Char) :
    (fs (path ++ strChars "/hashes.json") = none →
      check_dalamud_integrity sha1hex fs parseHashes path = .ok false) ∧
    (∀ bytes hashes, fs (path ++ strChars "/hashes.json") = some bytes →
      parseHashes bytes = some hashes →
      (check_dalamud_integrity sha1hex fs parseHashes path = .ok true ↔
        ∀ p ∈ hashes, ∃ c, fs (path ++ (strChars "/" ++ p.1)) = some c ∧ sha1hex c = p.2) ∧
      (check_dalamud_integrity sha1hex fs parseHashes path = .ok false ↔
        ¬ ∀ p ∈ hashes, ∃ c, fs (path ++ (strChars "/" ++ p.1)) = some c ∧ sha1hex c = p.2)) := by
  constructor
  · intro h
    simp [check_dalamud_integrity, h]
  · intro bytes hashes hman hparse
    have hrw : check_dalamud_integrity sha1hex fs parseHashes path
        = .ok (hashes.all (entry_ok sha1hex fs path)) := by
      simp [check_dalamud_integrity, hman, hparse, integrity_loop_eq_all]
    have hall : (hashes.all (entry_ok sha1hex fs path) = true) ↔
        ∀ p ∈ hashes, ∃ c, fs (path ++ (strChars "/" ++ p.1)) = some c ∧ sha1hex c = p.2 := by
      rw [List.all_eq_true]
      constructor
      · intro h p hp; exact (entry_ok_iff sha1hex fs path p).mp (h p hp)
      · intro h p hp; exact (entry_ok_iff sha1hex fs path p).mpr (h p hp)
    constructor
    · rw [hrw]
      simp only [Except.ok.injEq]
      exact hall
    · rw [hrw]
      simp only [Except.ok.injEq]
      rw [← hall]
      cases hashes.all (entry_ok sha1hex fs path) <;> simp

/-- Witness for C3: a one-entry manifest whose file exists with a matching
hash makes the check return Ok(true). -/
theorem check_dalamud_integrity_spec_witness :
    check_dalamud_integrity (fun _ => strChars "h") (fun _ => some [2])
      (fun _ => some [(strChars "a.dll", strChars "h")]) (strChars "p") = .ok true :=
  ((check_dalamud_integrity_spec (fun _ => strChars "h") (fun _ => some [2])
      (fun _ => some [(strChars "a.dll", strChars "h")]) (strChars "p")).2
    [2] [(strChars "a.dll", strChars "h")] rfl rfl).1.mpr (by
      intro p hp
      simp only [List.mem_singleton] at hp
      subst hp
      exact ⟨[2], rfl, rfl⟩)

/- ### Session-token extraction (get_session_id, ffxiv.rs lines 424-449;
get_sid, network.rs lines 159-165) -/

/-- The literal left marker of the regex in get_session_id. -/
def sidMarker : List Char := ['s', 'i', 'd', ',']

/-- The literal right marker of the regex in get_session_id. -/
def termsMarker : List Char := [',', 't', 'e', 'r', 'm', 's']

/-- The greedy dot-star-then-marker tail of the regex: the longest
newline-free prefix of the input after which termsMarker immediately
follows (the regex dot does not match a newline). -/
def greedyCapture : List Char → Option (List Char)
  | [] => none
  | c :: cs =>
    if c == '\n' then
      if listStartsWith termsMarker (c :: cs) then some [] else none
    else
      match greedyCapture cs with
      | some t => some (c :: t)
      | none => if listStartsWith termsMarker (c :: cs) then some [] else none

/-- Leftmost-first matching of the regex sid,(.*),terms: at the first
position where sidMarker begins and the greedy tail completes, the
capture group is returned. -/
def extract_sid : List Char → Option (List Char)
  | [] => none
  | c :: cs =>
    if listStartsWith sidMarker (c :: cs) then
      match greedyCapture (List.drop 4 (c :: cs)) with
      | some t => some t
      | none => extract_sid cs
    else extract_sid cs

/-- The parse step of get_session_id (ffxiv.rs lines 424-449): a capture
yields the session id, absence of a match yields the single parse-class
error used both for malformed responses and rejected credentials. -/
def get_session_id_parse (body : List Char) : Except (List Char) (List Char) :=
  match extract_sid body with
  | some t => .ok t
  | none => .error (strChars "Failed to extract session ID")

theorem greedyCapture_cons_not_nl {c : Char} (cs : List Char)
    (hc : (c == '\n') = false) :
    greedyCapture (c :: cs) = match greedyCapture cs with
      | some t => some (c :: t)
      | none => if listStartsWith termsMarker (c :: cs) then some [] else none := by
  simp [greedyCapture, hc]

theorem extract_sid_cons_pos {c : Char} {cs : List Char}
    (h : listStartsWith sidMarker (c :: cs) = true) :
    extract_sid (c :: cs) = match greedyCapture (List.drop 4 (c :: cs)) with
      | some t => some t
      | none => extract_sid cs := by
  simp [extract_sid, h]

theorem extract_sid_cons_neg {c : Char} {cs : List Char}
    (h : listStartsWith sidMarker (c :: cs) = false) :
    extract_sid (c :: cs) = extract_sid cs := by
  simp [extract_sid, h]

theorem greedyCapture_occursSub {s t : List Char}
    (h : greedyCapture s = some t) : occursSub termsMarker s = true := by
  induction s generalizing t with
  | nil => simp [greedyCapture] at h
  | cons c cs ih =>
    by_cases hc : (c == '\n') = true
    · rw [greedyCapture, if_pos hc] at h
      by_cases hsw : listStartsWith termsMarker (c :: cs) = true
      · simp [occursSub, hsw]
      · rw [if_neg hsw] at h
        simp at h
    · rw [greedyCapture_cons_not_nl cs (by simpa using hc)] at h
      cases hg : greedyCapture cs with
      | some t2 =>
        have := ih hg
        simp [occursSub, this]
      | none =>
        rw [hg] at h
        by_cases hsw : listStartsWith termsMarker (c :: cs) = true
        · simp [occursSub, hsw]
        · rw [if_neg hsw] at h
          exact absurd h (by simp)

theorem greedyCapture_exact (tok suf : List Char)
    (hnl : tok.all (fun c => !(c == '\n')) = true)
    (hsuf : occursSub termsMarker suf = false) :
    greedyCapture (tok ++ (termsMarker ++ suf)) = some tok := by
  induction tok with
  | nil =>
    have hnone : greedyCapture (['t', 'e', 'r', 'm', 's'] ++ suf) = none := by
      cases hg : greedyCapture (['t', 'e', 'r', 'm', 's'] ++ suf) with
      | none => rfl
      | some t =>
        have hocc := greedyCapture_occursSub hg
        have hsame : occursSub termsMarker (['t', 'e', 'r', 'm', 's'] ++ suf)
            = occursSub termsMarker suf := rfl
        rw [hsame, hsuf] at hocc
        exact absurd hocc (by simp)
    have hsw : listStartsWith termsMarker (',' :: (['t', 'e', 'r', 'm', 's'] ++ suf))
        = true := listStartsWith_self_append termsMarker suf
    rw [List.nil_append]
    rw [show termsMarker ++ suf = ',' :: (['t', 'e', 'r', 'm', 's'] ++ suf) from rfl]
    rw [greedyCapture_cons_not_nl (c := ',') _ (by decide), hnone, if_pos hsw]
  | cons c tok' ih =>
    simp only [List.all_cons, Bool.and_eq_true] at hnl
    have hc : (c == '\n') = false := by
      cases hcc : (c == '\n') with
      | false => rfl
      | true => rw [hcc] at hnl; simp at hnl
    rw [List.cons_append, greedyCapture_cons_not_nl _ hc, ih hnl.2]

theorem extract_sid_exact (pre tok suf : List Char)
    (hpre : occursSub sidMarker (pre ++ ['s', 'i', 'd']) = false)
    (hnl : tok.all (fun c => !(c == '\n')) = true)
    (hsuf : occursSub termsMarker suf = false) :
    extract_sid (pre ++ (sidMarker ++ (tok ++ (termsMarker ++ suf)))) = some tok := by
  induction pre with
  | nil =>
    have hsw : listStartsWith sidMarker
        ('s' :: 'i' :: 'd' :: ',' :: (tok ++ (termsMarker ++ suf))) = true :=
      listStartsWith_self_append sidMarker (tok ++ (termsMarker ++ suf))
    rw [List.nil_append]
    rw [show sidMarker ++ (tok ++ (termsMarker ++ suf))
        = 's' :: 'i' :: 'd' :: ',' :: (tok ++ (termsMarker ++ suf)) from rfl]
    rw [extract_sid_cons_pos hsw]
    rw [show List.drop 4 ('s' :: 'i' :: 'd' :: ',' :: (tok ++ (termsMarker ++ suf)))
        = tok ++ (termsMarker ++ suf) from rfl]
    rw [greedyCapture_exact tok suf hnl hsuf]
  | cons c pre' ih =>
    rw [List.cons_append, occursSub] at hpre
    have hparts : listStartsWith sidMarker (c :: (pre' ++ ['s', 'i', 'd'])) = false ∧
        occursSub sidMarker (pre' ++ ['s', 'i', 'd']) = false := by
      cases h1 : listStartsWith sidMarker (c :: (pre' ++ ['s', 'i', 'd'])) <;>
        cases h2 : occursSub sidMarker (pre' ++ ['s', 'i', 'd']) <;>
        rw [h1, h2] at hpre <;> simp_all
    have hlen : sidMarker.length ≤ ((c :: pre') ++ ['s', 'i', 'd']).length := by
      simp [sidMarker]
    have hsw2 : listStartsWith sidMarker
        (((c :: pre') ++ ['s', 'i', 'd']) ++ (',' :: (tok ++ (termsMarker ++ suf))))
        = false := by
      rw [listStartsWith_append_long _ hlen]
      exact hparts.1
    have hshape : c :: (pre' ++ (sidMarker ++ (tok ++ (termsMarker ++ suf))))
        = ((c :: pre') ++ ['s', 'i', 'd']) ++ (',' :: (tok ++ (termsMarker ++ suf))) := by
      simp [sidMarker]
    rw [List.cons_append, extract_sid_cons_neg (by rw [hshape]; exact hsw2)]
    exact ih hparts.2

theorem extract_sid_none_of_no_sid {body : List Char}
    (h : occursSub sidMarker body = false) : extract_sid body = none := by
  induction body with
  | nil => rfl
  | cons c cs ih =>
    rw [occursSub] at h
    have hparts : listStartsWith sidMarker (c :: cs) = false ∧
        occursSub sidMarker cs = false := by
      cases h1 : listStartsWith sidMarker (c :: cs) <;>
        cases h2 : occursSub sidMarker cs <;> rw [h1, h2] at h <;> simp_all
    rw [extract_sid_cons_neg hparts.1]
    exact ih hparts.2

theorem extract_sid_none_of_no_terms {body : List Char}
    (h : occursSub termsMarker body = false) : extract_sid body = none := by
  induction body with
  | nil => rfl
  | cons c cs ih =>
    have h2 : occursSub termsMarker cs = false := by
      rw [occursSub] at h
      cases h2 : occursSub termsMarker cs
      · rfl
      · rw [h2] at h; simp at h
    by_cases hsw : listStartsWith sidMarker (c :: cs) = true
    · rw [extract_sid_cons_pos hsw]
      cases hg : greedyCapture (List.drop 4 (c :: cs)) with
      | some t =>
        have h3 := occursSub_of_drop (p := termsMarker) (n := 4) (s := c :: cs)
          (greedyCapture_occursSub hg)
        rw [h] at h3
        exact absurd h3 (by simp)
      | none => exact ih h2
    · rw [extract_sid_cons_neg (by simpa using hsw)]
      exact ih h2

/-- C5: when the response body decomposes as pre ++ "sid," ++ tok ++
",terms" ++ suf with no earlier "sid," occurrence, no newline inside the
token and no further ",terms" occurrence after it, the session-id parse
returns exactly tok; and when the body lacks the "sid," marker or lacks
the ",terms" marker, it returns the single parse-class error (the same
error kind for a malformed response and for rejected credentials), never
panicking. -/
theorem get_session_id_extraction (pre tok suf body : List Char) :
    (occursSub sidMarker (pre ++ ['s', 'i', 'd']) = false →
     tok.all (fun c => !(c == '\n')) = true →
     occursSub termsMarker suf = false →
     get_session_id_parse (pre ++ (sidMarker ++ (tok ++ (termsMarker ++ suf))))
       = .ok tok) ∧
    (occursSub sidMarker body = false ∨ occursSub termsMarker body = false →
     get_session_id_parse body = .error (strChars "Failed to extract session ID")) := by
  constructor
  · intro h1 h2 h3
    simp [get_session_id_parse, extract_sid_exact pre tok suf h1 h2 h3]
  · rintro (h | h)
    · simp [get_session_id_parse, extract_sid_none_of_no_sid h]
    · simp [get_session_id_parse, extract_sid_none_of_no_terms h]

/-- Witness for C5: the body "x" ++ "sid," ++ "XYZ-TOKEN" ++ ",terms" ++ "y"
yields exactly XYZ-TOKEN, and a body with no marker yields the parse
error. -/
theorem get_session_id_extraction_witness :
    get_session_id_parse (strChars "x" ++ (sidMarker ++ (strChars "XYZ-TOKEN" ++
      (termsMarker ++ strChars "y")))) = .ok (strChars "XYZ-TOKEN") ∧
    get_session_id_parse (strChars "no match here")
      = .error (strChars "Failed to extract session ID") :=
  ⟨(get_session_id_extraction (strChars "x") (strChars "XYZ-TOKEN") (strChars "y")
      []).1 (by decide) (by decide) (by decide),
   (get_session_id_extraction [] [] [] (strChars "no match here")).2
      (Or.inl (by decide))⟩

/- ### Device fingerprint (make_computer_id and get_user_agent, ffxiv.rs
lines 532-563; network.rs lines 57-80) -/

/-- One lowercase hexadecimal digit. -/
def hexDigit (n : Nat) : Char :=
  if n < 10 then Char.ofNat (48 + n) else Char.ofNat (87 + n)

/-- Two lowercase hexadecimal digits of one byte (hex::encode of a byte). -/
def hexByte (b : Nat) : List Char := [hexDigit (b / 16 % 16), hexDigit (b % 16)]

/-- hex::encode over a byte sequence. -/
def hex_encode (bs : List Nat) : List Char :=
  bs.foldr (fun b acc => hexByte b ++ acc) []

/-- make_computer_id (ffxiv.rs lines 539-563): concatenate machine name,
user name, the fixed OS version label and the processor count; digest the
result (`sha1` abstracts the SHA-1 function as a byte sequence); place
the first four digest bytes at positions 1-4 of a 5-byte buffer; set
byte 0 to the bitwise complement (255 - x on a byte) of their wrapping
sum; render the buffer as lowercase hex. -/
def make_computer_id (sha1 : List Char → List Nat)
    (machine_name user_name : List Char) (processor_count : Nat) : List Char :=
  let hash_string := machine_name ++ user_name ++ strChars "Windows 10.0"
    ++ strChars (Nat.repr processor_count)
  let hash := sha1 hash_string
  let b1 := hash.getD 0 0
  let b2 := hash.getD 1 0
  let b3 := hash.getD 2 0
  let b4 := hash.getD 3 0
  let b0 := 255 - ((b1 + b2 + b3 + b4) % 256)
  hex_encode [b0, b1, b2, b3, b4]

/-- get_user_agent (ffxiv.rs lines 532-537): the fixed user-agent template
with the computer id substituted. -/
def get_user_agent (sha1 : List Char → List Nat)
    (machine_name user_name : List Char) (processor_count : Nat) : List Char :=
  strChars "SQEXAuthor/2.0.0(Windows 6.2; ja-jp; "
    ++ make_computer_id sha1 machine_name user_name processor_count
    ++ strChars ")"

theorem hexDigit_mem (n : Nat) (h : n < 16) :
    hexDigit n ∈ strChars "0123456789abcdef" := by
  have : ∀ m < 16, hexDigit m ∈ strChars "0123456789abcdef" := by decide
  exact this n h

theorem hexByte_length (b : Nat) : (hexByte b).length = 2 := rfl

/-- C6: for every machine-attribute input whose digest is a 160-bit byte
sequence, the fingerprint is the lowercase hexadecimal rendering of five
bytes, where byte 0 is the bitwise complement of the wrapping byte sum of
the four payload bytes and the payload bytes are the first four digest
bytes of the concatenated attributes. -/
theorem make_computer_id_checksum (sha1 : List Char → List Nat)
    (machine_name user_name : List Char) (processor_count : Nat)
    (hlen : (sha1 (machine_name ++ user_name ++ strChars "Windows 10.0"
      ++ strChars (Nat.repr processor_count))).length = 20)
    (hbytes : ∀ b ∈ sha1 (machine_name ++ user_name ++ strChars "Windows 10.0"
      ++ strChars (Nat.repr processor_count)), b < 256) :
    ∃ b0 b1 b2 b3 b4,
      b0 < 256 ∧ b1 < 256 ∧ b2 < 256 ∧ b3 < 256 ∧ b4 < 256 ∧
      make_computer_id sha1 machine_name user_name processor_count
        = hex_encode [b0, b1, b2, b3, b4] ∧
      (make_computer_id sha1 machine_name user_name processor_count).length = 10 ∧
      b0 = 255 - ((b1 + b2 + b3 + b4) % 256) ∧
      [b1, b2, b3, b4] = (sha1 (machine_name ++ user_name ++ strChars "Windows 10.0"
        ++ strChars (Nat.repr processor_count))).take 4 ∧
      ∀ c ∈ make_computer_id sha1 machine_name user_name processor_count,
        c ∈ strChars "0123456789abcdef" := by
  set attrs := machine_name ++ user_name ++ strChars "Windows 10.0"
    ++ strChars (Nat.repr processor_count) with hattrs
  obtain ⟨h1, h2, h3, h4, t, hsh⟩ :
      ∃ h1 h2 h3 h4 t, sha1 attrs = h1 :: h2 :: h3 :: h4 :: t := by
    cases hs : sha1 attrs with
    | nil => rw [hs] at hlen; simp at hlen
    | cons a l1 =>
      cases l1 with
      | nil => rw [hs] at hlen; simp at hlen
      | cons b l2 =>
        cases l2 with
        | nil => rw [hs] at hlen; simp at hlen
        | cons c l3 =>
          cases l3 with
          | nil => rw [hs] at hlen; simp at hlen
          | cons d l4 => exact ⟨a, b, c, d, l4, rfl⟩
  have hb1 : h1 < 256 := hbytes h1 (by rw [hsh]; simp)
  have hb2 : h2 < 256 := hbytes h2 (by rw [hsh]; simp)
  have hb3 : h3 < 256 := hbytes h3 (by rw [hsh]; simp)
  have hb4 : h4 < 256 := hbytes h4 (by rw [hsh]; simp)
  have hid : make_computer_id sha1 machine_name user_name processor_count
      = hex_encode [255 - ((h1 + h2 + h3 + h4) % 256), h1, h2, h3, h4] := by
    rw [make_computer_id, ← hattrs, hsh]
    rfl
  refine ⟨255 - ((h1 + h2 + h3 + h4) % 256), h1, h2, h3, h4,
    by omega, hb1, hb2, hb3, hb4, hid, ?_, rfl, by rw [hsh]; rfl, ?_⟩
  · rw [hid]
    simp [hex_encode, hexByte]
  · intro c hc
    rw [hid] at hc
    simp only [hex_encode, List.foldr_cons, List.foldr_nil, List.append_nil, hexByte,
      List.cons_append, List.nil_append, List.mem_cons, List.not_mem_nil, or_false] at hc
    rcases hc with h | h | h | h | h | h | h | h | h | h <;> rw [h] <;>
      exact hexDigit_mem _ (by omega)

/-- Witness for C6 with a concrete 20-byte digest function. -/
theorem make_computer_id_checksum_witness :
    ∃ b0 b1 b2 b3 b4,
      b0 < 256 ∧ b1 < 256 ∧ b2 < 256 ∧ b3 < 256 ∧ b4 < 256 ∧
      make_computer_id (fun _ => List.range 20) (strChars "host") (strChars "user") 8
        = hex_encode [b0, b1, b2, b3, b4] ∧
      (make_computer_id (fun _ => List.range 20) (strChars "host") (strChars "user") 8).length
        = 10 ∧
      b0 = 255 - ((b1 + b2 + b3 + b4) % 256) ∧
      [b1, b2, b3, b4] = ((fun (_ : List Char) => List.range 20) (strChars "host"
        ++ strChars "user" ++ strChars "Windows 10.0" ++ strChars (Nat.repr 8))).take 4 ∧
      ∀ c ∈ make_computer_id (fun _ => List.range 20) (strChars "host") (strChars "user") 8,
        c ∈ strChars "0123456789abcdef" := by
  have h := make_computer_id_checksum (fun _ => List.range 20)
    (strChars "host") (strChars "user") 8 (by decide) (by decide)
  exact h

/-- C7: the fingerprint generator is deterministic — identical machine
attributes (machine name, user name, the fixed OS version label and the
processor count) produce the identical fingerprint and hence the
identical user-agent string. -/
theorem make_computer_id_deterministic (sha1 : List Char → List Nat)
    (mn un mn2 un2 : List Char) (pc pc2 : Nat)
    (hm : mn = mn2) (hu : un = un2) (hp : pc = pc2) :
    make_computer_id sha1 mn un pc = make_computer_id sha1 mn2 un2 pc2 ∧
    get_user_agent sha1 mn un pc = get_user_agent sha1 mn2 un2 pc2 := by
  subst hm; subst hu; subst hp
  exact ⟨rfl, rfl⟩

/-- Witness for C7 at concrete attribute values. -/
theorem make_computer_id_deterministic_witness :
    make_computer_id (fun _ => List.range 20) (strChars "host") (strChars "user") 8
      = make_computer_id (fun _ => List.range 20) (strChars "host") (strChars "user") 8 ∧
    get_user_agent (fun _ => List.range 20) (strChars "host") (strChars "user") 8
      = get_user_agent (fun _ => List.range 20) (strChars "host") (strChars "user") 8 :=
  make_computer_id_deterministic (fun _ => List.range 20)
    (strChars "host") (strChars "user") (strChars "host") (strChars "user") 8 8
    rfl rfl rfl

/- ### Asset-version fallback (setup_dalamud, ffxiv.rs lines 687-695) -/

/-- Rust str::parse::<i32>: optional sign, at least one decimal digit,
nothing else, and the value must fit in a 32-bit signed integer. -/
def parse_i32 (s : List Char) : Option Int :=
  let digits (l : List Char) : Option Int :=
    if l = [] then none
    else if l.all (fun c => decide ('0' ≤ c) && decide (c ≤ '9')) then
      some (l.foldl (fun acc c => acc * 10 + (Int.ofNat c.toNat - 48)) 0)
    else none
  let raw : Option Int :=
    match s with
    | '-' :: rest => (digits rest).map (fun v => -v)
    | '+' :: rest => digits rest
    | _ => digits s
  match raw with
  | some v => if v < -2147483648 ∨ 2147483647 < v then none else some v
  | none => none

/-- The locally persisted asset version as computed in setup_dalamud
(ffxiv.rs lines 690-693): the asset.ver file contents when the file
exists, the string "0" otherwise, parsed as i32 with parse failures
collapsed to 0. -/
def current_asset_ver (file : Option (List Char)) : Int :=
  (parse_i32 (file.getD (strChars "0"))).getD 0

/-- needs_asset_update (ffxiv.rs line 695): the local version is strictly
below the remote one. -/
def needs_asset_update (file : Option (List Char)) (remote : Int) : Bool :=
  decide (current_asset_ver file < remote)

/-- C9: when the persisted asset version file is missing or its contents
do not parse as an integer, the local asset version is treated as 0, so
an asset update is due exactly when the remote integer version is at
least 1. -/
theorem asset_version_fallback (file : Option (List Char)) (remote : Int)
    (h : file = none ∨ ∃ c, file = some c ∧ parse_i32 c = none) :
    current_asset_ver file = 0 ∧
    (needs_asset_update file remote = true ↔ 1 ≤ remote) := by
  have h0 : current_asset_ver file = 0 := by
    rcases h with h | ⟨c, hc, hp⟩
    · rw [h]
      rfl
    · rw [hc]
      simp [current_asset_ver, hp]
  refine ⟨h0, ?_⟩
  rw [needs_asset_update, h0]
  constructor
  · intro hlt
    have := of_decide_eq_true hlt
    omega
  · intro hle
    exact decide_eq_true (by omega)

/-- Witness for C9: a missing version file and a remote version of 1
trigger an update. -/
theorem asset_version_fallback_witness :
    current_asset_ver none = 0 ∧
    (needs_asset_update none 1 = true ↔ 1 ≤ (1 : Int)) :=
  asset_version_fallback none 1 (Or.inl rfl)

/- ### Launch orchestration (launch_game, ffxiv.rs lines 200-338) -/

/-- LaunchConfig (ffxiv.rs lines 56-84). -/
structure LaunchConfig where
  game_path : List Char
  username : List Char
  password : List Char
  otp : Option (List Char)
  dx11 : Bool
  language : Nat
  region : Nat
  expansion_level : Nat
  is_steam : Bool
  enable_dalamud : Bool
  dalamud_path : List Char
  injection_delay : Nat

/-- Oracle for the effectful stages of launch_game: the outcome of
setup_dalamud, whether the selected game executable exists, and the
outcomes of get_session_id, inject_dalamud and
create_suspended_game_process. -/
structure LaunchOracle where
  dalamud_result : Except (List Char) (List Char)
  game_exe_exists : Bool
  sid_result : Except (List Char) (List Char)
  inject_result : Except (List Char) (List Char)
  create_result : Except (List Char) Nat

/-- The observable stage actions of one launch attempt, in order. -/
inductive LaunchEvent where
  | dalamudSetup
  | sessionAcquire
  | injectInvoke
  | createProcess
deriving DecidableEq, Repr

/-- What launch_game produces: its returned result, the ordered stage
actions that were performed, and the pushed metric entries. -/
structure LaunchOutcome where
  result : Except (List Char) (List Char)
  events : List LaunchEvent
  metrics : List (List Char)

/-- The game executable selected by the dx11 flag (ffxiv.rs lines 230-234). -/
def game_exe_path (cfg : LaunchConfig) : List Char :=
  cfg.game_path ++ strChars (if cfg.dx11 then "/game/ffxiv_dx11.exe" else "/game/ffxiv.exe")

/-- metrics.join of the source, with the newline separator. -/
def join_newline : List (List Char) → List Char
  | [] => []
  | m :: rest =>
    match rest with
    | [] => m
    | _ :: _ => m ++ '\n' :: join_newline rest

/-- The stages of launch_game after the optional Dalamud setup: the
executable-existence check (lines 228-241), session-id acquisition
(lines 245-264), argument preparation (lines 266-279) and the launch
branch (lines 283-324), accumulating events and metric entries. -/
def launch_after_setup (cfg : LaunchConfig) (o : LaunchOracle)
    (evs : List LaunchEvent) (ms : List (List Char)) : LaunchOutcome :=
  if o.game_exe_exists = false then
    { result := .error (strChars "Game executable not found at " ++ game_exe_path cfg),
      events := evs, metrics := ms }
  else
    let ms1 := ms ++ [strChars "Path preparation"]
    match o.sid_result with
    | .error e =>
      { result := .error (strChars "Failed to get session ID: " ++ e),
        events := evs ++ [.sessionAcquire], metrics := ms1 }
    | .ok _sid =>
      let evs1 := evs ++ [.sessionAcquire]
      let ms2 := ms1 ++ [strChars "Session ID retrieval", strChars "Arguments preparation"]
      if cfg.enable_dalamud then
        match o.inject_result with
        | .error e =>
          { result := .error (strChars "Failed to launch game with Dalamud: " ++ e),
            events := evs1 ++ [.injectInvoke], metrics := ms2 }
        | .ok _ =>
          let ms3 := ms2 ++ [strChars "Dalamud injection and launch",
            strChars "Total launch time"]
          { result := .ok (strChars "Game launched successfully. Performance metrics:\n"
              ++ join_newline ms3),
            events := evs1 ++ [.injectInvoke], metrics := ms3 }
      else
        match o.create_result with
        | .error e =>
          { result := .error (strChars "Failed to launch game: " ++ e),
            events := evs1 ++ [.createProcess], metrics := ms2 }
        | .ok _pid =>
          let ms3 := ms2 ++ [strChars "Game process creation",
            strChars "Total launch time"]
          { result := .ok (strChars "Game launched successfully. Performance metrics:\n"
              ++ join_newline ms3),
            events := evs1 ++ [.createProcess], metrics := ms3 }

/-- launch_game (ffxiv.rs lines 200-338): the optional Dalamud setup runs
first (lines 206-226); its failure returns immediately; then the
remaining stages run. -/
def launch_game (cfg : LaunchConfig) (o : LaunchOracle) : LaunchOutcome :=
  if cfg.enable_dalamud then
    match o.dalamud_result with
    | .error e =>
      { result := .error (strChars "Dalamud setup failed: " ++ e),
        events := [.dalamudSetup], metrics := [] }
    | .ok _ => launch_after_setup cfg o [.dalamudSetup] [strChars "Dalamud setup"]
  else launch_after_setup cfg o [] []

theorem launch_after_setup_sid_error (cfg : LaunchConfig) (o : LaunchOracle)
    (evs : List LaunchEvent) (ms : List (List Char)) (e : List Char)
    (hsid : o.sid_result = .error e) :
    launch_after_setup cfg o evs ms
      = if o.game_exe_exists = false then
          { result := .error (strChars "Game executable not found at " ++ game_exe_path cfg),
            events := evs, metrics := ms }
        else
          { result := .error (strChars "Failed to get session ID: " ++ e),
            events := evs ++ [.sessionAcquire],
            metrics := ms ++ [strChars "Path preparation"] } := by
  cases hex : o.game_exe_exists <;> simp [launch_after_setup, hex, hsid]

theorem launch_after_setup_events (cfg : LaunchConfig) (o : LaunchOracle)
    (evs : List LaunchEvent) (ms : List (List Char)) :
    (launch_after_setup cfg o evs ms).events = evs ∨
    ∃ t, (launch_after_setup cfg o evs ms).events
      = evs ++ LaunchEvent.sessionAcquire :: t := by
  cases hex : o.game_exe_exists with
  | false => left; simp [launch_after_setup, hex]
  | true =>
    right
    cases hsid : o.sid_result with
    | error e => exact ⟨[], by simp [launch_after_setup, hex, hsid]⟩
    | ok sid =>
      cases hd : cfg.enable_dalamud with
      | true =>
        cases hinj : o.inject_result with
        | error e2 =>
          exact ⟨[.injectInvoke], by simp [launch_after_setup, hex, hsid, hd, hinj]⟩
        | ok v =>
          exact ⟨[.injectInvoke], by simp [launch_after_setup, hex, hsid, hd, hinj]⟩
      | false =>
        cases hcr : o.create_result with
        | error e2 =>
          exact ⟨[.createProcess], by simp [launch_after_setup, hex, hsid, hd, hcr]⟩
        | ok pid =>
          exact ⟨[.createProcess], by simp [launch_after_setup, hex, hsid, hd, hcr]⟩

/-- C4: in every launch attempt with the add-on host enabled, session
acquisition occurs only when the add-on setup has completed successfully
and strictly after it in the event order; and when session acquisition
fails, the orchestrator never invokes process creation or the injector,
and returns the session-stage error whenever session acquisition was
reached. -/
theorem session_after_addon_update (cfg : LaunchConfig) (o : LaunchOracle) :
    (cfg.enable_dalamud = true →
      LaunchEvent.sessionAcquire ∈ (launch_game cfg o).events →
      (∃ v, o.dalamud_result = .ok v) ∧
      ∃ pre post, (launch_game cfg o).events
        = pre ++ LaunchEvent.sessionAcquire :: post ∧ LaunchEvent.dalamudSetup ∈ pre) ∧
    (∀ e, o.sid_result = .error e →
      LaunchEvent.createProcess ∉ (launch_game cfg o).events ∧
      LaunchEvent.injectInvoke ∉ (launch_game cfg o).events ∧
      (LaunchEvent.sessionAcquire ∈ (launch_game cfg o).events →
        (launch_game cfg o).result
          = .error (strChars "Failed to get session ID: " ++ e))) := by
  constructor
  · intro hd hmem
    cases hda : o.dalamud_result with
    | error e =>
      rw [show launch_game cfg o
          = { result := .error (strChars "Dalamud setup failed: " ++ e),
              events := [.dalamudSetup], metrics := [] } from by
        simp [launch_game, hd, hda]] at hmem
      simp at hmem
    | ok v =>
      have hl : launch_game cfg o
          = launch_after_setup cfg o [.dalamudSetup] [strChars "Dalamud setup"] := by
        simp [launch_game, hd, hda]
      refine ⟨⟨v, rfl⟩, ?_⟩
      rcases launch_after_setup_events cfg o [.dalamudSetup] [strChars "Dalamud setup"]
        with hev | ⟨t, hev⟩
      · rw [hl, hev] at hmem
        simp at hmem
      · exact ⟨[.dalamudSetup], t, by rw [hl, hev], by simp⟩
  · intro e hsid
    cases hd : cfg.enable_dalamud with
    | false =>
      have hl : launch_game cfg o = launch_after_setup cfg o [] [] := by
        simp [launch_game, hd]
      rw [hl, launch_after_setup_sid_error cfg o [] [] e hsid]
      cases hex : o.game_exe_exists <;> simp [hex]
    | true =>
      cases hda : o.dalamud_result with
      | error e2 =>
        rw [show launch_game cfg o
            = { result := .error (strChars "Dalamud setup failed: " ++ e2),
                events := [.dalamudSetup], metrics := [] } from by
          simp [launch_game, hd, hda]]
        simp
      | ok v =>
        have hl : launch_game cfg o
            = launch_after_setup cfg o [.dalamudSetup] [strChars "Dalamud setup"] := by
          simp [launch_game, hd, hda]
        rw [hl, launch_after_setup_sid_error cfg o _ _ e hsid]
        cases hex : o.game_exe_exists <;> simp [hex]

/-- Concrete configuration with the add-on host enabled, used to witness C4. -/
def c4Cfg : LaunchConfig :=
  ⟨strChars "C:/game", strChars "user", strChars "pw", none, true, 1, 3, 4,
   false, true, strChars "C:/xl", 5000⟩

/-- Concrete oracle where the add-on setup succeeds, the executable exists
and session acquisition fails, used to witness C4. -/
def c4Oracle : LaunchOracle :=
  ⟨.ok (strChars "done"), true, .error (strChars "bad creds"), .ok [], .ok 7⟩

/-- Witness for C4: with the add-on host enabled, setup succeeded and
session acquisition failing, the event order and failure outcome are as
claimed. -/
theorem session_after_addon_update_witness :
    ((∃ v, c4Oracle.dalamud_result = .ok v) ∧
      ∃ pre post, (launch_game c4Cfg c4Oracle).events
        = pre ++ LaunchEvent.sessionAcquire :: post ∧
        LaunchEvent.dalamudSetup ∈ pre) ∧
    (LaunchEvent.createProcess ∉ (launch_game c4Cfg c4Oracle).events ∧
     LaunchEvent.injectInvoke ∉ (launch_game c4Cfg c4Oracle).events ∧
     (LaunchEvent.sessionAcquire ∈ (launch_game c4Cfg c4Oracle).events →
       (launch_game c4Cfg c4Oracle).result
         = .error (strChars "Failed to get session ID: " ++ strChars "bad creds"))) :=
  ⟨(session_after_addon_update c4Cfg c4Oracle).1 rfl (by decide),
   (session_after_addon_update c4Cfg c4Oracle).2 (strChars "bad creds") rfl⟩

/-- C8: for a launch attempt with the add-on host disabled in which the
executable exists, session acquisition succeeds and process creation
succeeds, launch_game returns a success summary containing the literal
substring "launched successfully", and exactly five stage-timing metric
entries were pushed. -/
theorem launch_success_summary (cfg : LaunchConfig) (o : LaunchOracle)
    (sid : List Char) (pid : Nat)
    (hd : cfg.enable_dalamud = false) (hex : o.game_exe_exists = true)
    (hsid : o.sid_result = .ok sid) (hcr : o.create_result = .ok pid) :
    (∃ summary, (launch_game cfg o).result = .ok summary ∧
      occursSub (strChars "launched successfully") summary = true) ∧
    (launch_game cfg o).metrics.length = 5 := by
  have hl : launch_game cfg o = launch_after_setup cfg o [] [] := by
    simp [launch_game, hd]
  have hrun : launch_after_setup cfg o [] []
      = { result := .ok (strChars "Game launched successfully. Performance metrics:\n"
            ++ join_newline [strChars "Path preparation", strChars "Session ID retrieval",
              strChars "Arguments preparation", strChars "Game process creation",
              strChars "Total launch time"]),
          events := [.sessionAcquire, .createProcess],
          metrics := [strChars "Path preparation", strChars "Session ID retrieval",
            strChars "Arguments preparation", strChars "Game process creation",
            strChars "Total launch time"] } := by
    simp [launch_after_setup, hex, hsid, hd, hcr]
  rw [hl, hrun]
  refine ⟨⟨_, rfl, ?_⟩, rfl⟩
  exact occursSub_append_left _ (by decide)

/-- Concrete configuration with the add-on host disabled, used to witness C8. -/
def c8Cfg : LaunchConfig :=
  ⟨strChars "C:/game", strChars "user", strChars "pw", none, true, 1, 3, 4,
   false, false, [], 5000⟩

/-- Concrete oracle where every stage succeeds, used to witness C8. -/
def c8Oracle : LaunchOracle :=
  ⟨.ok [], true, .ok (strChars "SID123"), .ok [], .ok 7⟩

/-- Witness for C8 at a concrete all-success run. -/
theorem launch_success_summary_witness :
    (∃ summary, (launch_game c8Cfg c8Oracle).result = .ok summary ∧
      occursSub (strChars "launched successfully") summary = true) ∧
    (launch_game c8Cfg c8Oracle).metrics.length = 5 :=
  launch_success_summary c8Cfg c8Oracle (strChars "SID123") 7 rfl rfl rfl rfl

/-- C10 (amended): session acquisition is reached only when the selected
game executable exists — so the credentials are never sent when it is
missing — and, provided the attempt got past the optional add-on setup
stage (the add-on host disabled, or its setup succeeded), a missing
executable makes the attempt fail with the path error. -/
theorem exe_check_before_session (cfg : LaunchConfig) (o : LaunchOracle) :
    (LaunchEvent.sessionAcquire ∈ (launch_game cfg o).events →
      o.game_exe_exists = true) ∧
    (o.game_exe_exists = false →
      (cfg.enable_dalamud = false ∨ ∃ v, o.dalamud_result = .ok v) →
      (launch_game cfg o).result
        = .error (strChars "Game executable not found at " ++ game_exe_path cfg) ∧
      LaunchEvent.sessionAcquire ∉ (launch_game cfg o).events) := by
  have hmain : o.game_exe_exists = false →
      (cfg.enable_dalamud = false ∨ ∃ v, o.dalamud_result = .ok v) →
      (launch_game cfg o).result
        = .error (strChars "Game executable not found at " ++ game_exe_path cfg) ∧
      LaunchEvent.sessionAcquire ∉ (launch_game cfg o).events := by
    intro hex hpass
    have hmiss : ∀ evs ms, launch_after_setup cfg o evs ms
        = { result := .error (strChars "Game executable not found at " ++ game_exe_path cfg),
            events := evs, metrics := ms } := by
      intro evs ms
      simp [launch_after_setup, hex]
    rcases hpass with hd | ⟨v, hda⟩
    · have hl : launch_game cfg o = launch_after_setup cfg o [] [] := by
        simp [launch_game, hd]
      rw [hl, hmiss]
      simp
    · cases hd : cfg.enable_dalamud with
      | false =>
        have hl : launch_game cfg o = launch_after_setup cfg o [] [] := by
          simp [launch_game, hd]
        rw [hl, hmiss]
        simp
      | true =>
        have hl : launch_game cfg o
            = launch_after_setup cfg o [.dalamudSetup] [strChars "Dalamud setup"] := by
          simp [launch_game, hd, hda]
        rw [hl, hmiss]
        simp
  constructor
  · intro hmem
    cases hex : o.game_exe_exists with
    | true => rfl
    | false =>
      cases hd : cfg.enable_dalamud with
      | false =>
        have := (hmain hex (Or.inl hd)).2
        exact absurd hmem this
      | true =>
        cases hda : o.dalamud_result with
        | error e =>
          rw [show launch_game cfg o
              = { result := .error (strChars "Dalamud setup failed: " ++ e),
                  events := [.dalamudSetup], metrics := [] } from by
            simp [launch_game, hd, hda]] at hmem
          simp at hmem
        | ok v =>
          have := (hmain hex (Or.inr ⟨v, hda⟩)).2
          exact absurd hmem this
  · exact hmain

/-- Concrete configuration used for the C10 counterexample and witness. -/
def c10Cfg : LaunchConfig :=
  ⟨strChars "C:/game", strChars "user", strChars "pw", none, true, 1, 3, 4,
   false, true, strChars "C:/xl", 5000⟩

/-- Concrete oracle in which the add-on setup fails while the game
executable is also missing, used for the C10 counterexample. -/
def c10Oracle : LaunchOracle :=
  ⟨.error (strChars "net down"), false, .ok (strChars "S"), .ok [], .ok 7⟩

/-- C10 counterexample: with the add-on host enabled and its setup failing,
a missing game executable does not make the attempt fail with the path
error — the attempt returns the add-on setup error instead, refuting the
claim that a missing executable always yields a path error (credentials
are still never sent). -/
theorem exe_missing_not_path_error :
    c10Oracle.game_exe_exists = false ∧
    (launch_game c10Cfg c10Oracle).result
      = .error (strChars "Dalamud setup failed: net down") ∧
    (launch_game c10Cfg c10Oracle).result
      ≠ .error (strChars "Game executable not found at " ++ game_exe_path c10Cfg) := by
  refine ⟨rfl, rfl, ?_⟩
  intro h
  have hres : (launch_game c10Cfg c10Oracle).result
      = .error (strChars "Dalamud setup failed: net down") := rfl
  rw [hres] at h
  have heq : strChars "Dalamud setup failed: net down"
      = strChars "Game executable not found at " ++ game_exe_path c10Cfg :=
    Except.error.inj h
  exact absurd heq (by decide)

/-- Concrete oracle with the add-on host disabled and the executable
missing, used to witness the amended C10. -/
def c10OracleDirect : LaunchOracle :=
  ⟨.ok [], false, .ok [], .ok [], .ok 7⟩

/-- Witness for the amended C10: add-on host disabled, executable missing —
the attempt fails with the path error and session acquisition never
happens. -/
theorem exe_check_before_session_witness :
    (launch_game c8Cfg c10OracleDirect).result
      = .error (strChars "Game executable not found at " ++ game_exe_path c8Cfg) ∧
    LaunchEvent.sessionAcquire ∉ (launch_game c8Cfg c10OracleDirect).events :=
  (exe_check_before_session c8Cfg c10OracleDirect).2 rfl (Or.inl rfl)
